import Mathlib

/-!
Verification of the huntr-cli credential pipeline.

This file shallowly embeds the credential acquisition and refresh pipeline of
the huntr-cli repository (the Clerk session manager, the CDP capture and check
flows, the credential resolution chain and the raw WebSocket frame codec) and
proves or refutes the specified properties about it.

JavaScript strings are modelled as Lean `String`/`List Char`; `Buffer` byte
buffers as `List Nat` with every element below 256; JavaScript objects used as
string maps as `List (String × String)` in insertion order; `null`/`undefined`
as `Option`.  `JSON.parse` is modelled by an executable recursive-descent
parser over `List Char` (strict JSON; `\uXXXX` escapes outside the basic plane
and surrogate-pair combination are approximated by the replacement character,
which no property here touches).
-/

set_option maxRecDepth 4096

namespace Huntr

/-! ## Character helpers -/

/-- The left-brace character, written numerically. -/
def lbrace : Char := Char.ofNat 123

/-- The right-brace character, written numerically. -/
def rbrace : Char := Char.ofNat 125

/-- The double-quote character. -/
def quoteC : Char := Char.ofNat 34

/-- The backslash character. -/
def backslashC : Char := Char.ofNat 92

/-- Safe cookie-name characters, from the source regex `/^[A-Za-z0-9_.-]+$/`
in `clerk-session-manager.ts` (`fetchToken`, `persistRotatedSessionCookie`). -/
def isSafeChar (c : Char) : Bool :=
  (('A' ≤ c && c ≤ 'Z') || ('a' ≤ c && c ≤ 'z') || ('0' ≤ c && c ≤ '9')
    || c = '_' || c = '.' || c = '-')

/-- `/^[A-Za-z0-9_.-]+$/.test name`: nonempty and all characters safe. -/
def isSafeCookieName (s : String) : Bool :=
  !s.toList.isEmpty && s.toList.all isSafeChar

/-- The characters of the literal cookie-name marker `__session=` that the
source strips from pasted cookie values. -/
def sessionEqChars : List Char := "__session=".toList

/-- The characters of the `sess_` identifier marker checked by
`extractSessionId` and the capture flow. -/
def sessChars : List Char := "sess_".toList

/-- `v.startsWith('__session=') ? v.slice('__session='.length) : v`
(fetchToken, extractSessionId, and the set-session CLI action). -/
def stripSessionEqL (v : List Char) : List Char :=
  if sessionEqChars.isPrefixOf v then v.drop sessionEqChars.length else v

/-- String-level wrapper for `stripSessionEqL`. -/
def stripSessionEq (v : String) : String :=
  (stripSessionEqL v.toList).asString

/-- `String.prototype.split('.')` on characters: splits at every dot, keeping
empty segments, never returning an empty list. -/
def splitDotAux : List Char → List Char → List (List Char)
  | [], acc => [acc.reverse]
  | c :: cs, acc =>
    if c = '.' then acc.reverse :: splitDotAux cs [] else splitDotAux cs (c :: acc)

/-- `raw.split('.')` as used by `extractSessionId` and the capture loop. -/
def splitDot (cs : List Char) : List (List Char) :=
  splitDotAux cs []

/-! ## Base64url decoding (Node `Buffer.from(s, 'base64url')`)

Node's base64 decoder is forgiving: characters outside the alphabet
(including padding) are skipped, and trailing bits that do not fill a byte are
dropped.  Both the `-`/`_` url alphabet and the `+`/`/` standard alphabet are
accepted. -/

/-- Value of one base64(url) alphabet character, `none` for foreign
characters (which Node's decoder skips). -/
def b64Val (c : Char) : Option Nat :=
  if 'A' ≤ c && c ≤ 'Z' then some (c.toNat - 65)
  else if 'a' ≤ c && c ≤ 'z' then some (c.toNat - 97 + 26)
  else if '0' ≤ c && c ≤ '9' then some (c.toNat - 48 + 52)
  else if c = '-' || c = '+' then some 62
  else if c = '_' || c = '/' then some 63
  else none

/-- Reassemble decoded 6-bit groups into bytes, dropping unfilled bits. -/
def b64Bytes : List Nat → List Nat
  | a :: b :: c :: d :: rest =>
      (a * 4 + b / 16) :: ((b % 16) * 16 + c / 4) :: ((c % 4) * 64 + d) :: b64Bytes rest
  | [a, b] => [a * 4 + b / 16]
  | [a, b, c] => [a * 4 + b / 16, (b % 16) * 16 + c / 4]
  | _ => []

/-- `Buffer.from(mid, 'base64url')` as bytes. -/
def b64DecodeBytes (cs : List Char) : List Nat :=
  b64Bytes (cs.filterMap b64Val)

/-- Spec-side base64url encoder (unpadded url alphabet), used to construct
concrete inputs for the decode direction. -/
def b64Char (n : Nat) : Char :=
  if n < 26 then Char.ofNat (65 + n)
  else if n < 52 then Char.ofNat (97 + n - 26)
  else if n < 62 then Char.ofNat (48 + n - 52)
  else if n = 62 then '-'
  else '_'

/-- Bytes to 6-bit groups, 3 bytes at a time. -/
def b64Sextets : List Nat → List Nat
  | a :: b :: c :: rest =>
      (a / 4) :: ((a % 4) * 16 + b / 16) :: ((b % 16) * 4 + c / 64) :: (c % 64) :: b64Sextets rest
  | [a, b] => [a / 4, (a % 4) * 16 + b / 16, (b % 16) * 4]
  | [a] => [a / 4, (a % 4) * 16]
  | [] => []

/-- Unpadded base64url encoding of a byte list. -/
def b64urlEncode (bs : List Nat) : List Char :=
  (b64Sextets bs).map b64Char

/-! ## UTF-8 (Node `buffer.toString('utf8')`)

Total, lenient decoder: well-formed sequences decode to their scalar value,
malformed bytes (and scalar values Lean's `Char` cannot hold) decode to the
replacement character U+FFFD, as Node does.  Only ASCII payloads occur in the
properties below. -/

/-- Replacement character U+FFFD. -/
def replacementChar : Char := Char.ofNat 0xFFFD

/-- A continuation byte `10xxxxxx`. -/
def isCont (b : Nat) : Bool := 128 ≤ b && b < 192

/-- Lenient UTF-8 decoding, fuel-structural so that it reduces in the
kernel; each step consumes at least one byte, so `bs.length` fuel is always
enough. -/
def utf8DecodeAux : Nat → List Nat → List Char
  | 0, _ => []
  | _, [] => []
  | fuel + 1, b :: bs =>
    if b < 128 then Char.ofNat b :: utf8DecodeAux fuel bs
    else if 192 ≤ b && b < 224 then
      match bs with
      | b2 :: bs' =>
        if isCont b2 then
          let v := (b - 192) * 64 + (b2 - 128)
          (if v < 128 then replacementChar else Char.ofNat v) :: utf8DecodeAux fuel bs'
        else replacementChar :: utf8DecodeAux fuel (b2 :: bs')
      | [] => [replacementChar]
    else if 224 ≤ b && b < 240 then
      match bs with
      | b2 :: b3 :: bs' =>
        if isCont b2 && isCont b3 then
          let v := (b - 224) * 4096 + (b2 - 128) * 64 + (b3 - 128)
          (if v < 2048 || (55296 ≤ v && v < 57344) then replacementChar else Char.ofNat v)
            :: utf8DecodeAux fuel bs'
        else replacementChar :: utf8DecodeAux fuel (b2 :: b3 :: bs')
      | _ => [replacementChar]
    else if 240 ≤ b && b < 248 then
      match bs with
      | b2 :: b3 :: b4 :: bs' =>
        if isCont b2 && isCont b3 && isCont b4 then
          let v := (b - 240) * 262144 + (b2 - 128) * 4096 + (b3 - 128) * 64 + (b4 - 128)
          (if v < 65536 || 1114111 < v then replacementChar else Char.ofNat v)
            :: utf8DecodeAux fuel bs'
        else replacementChar :: utf8DecodeAux fuel (b2 :: b3 :: b4 :: bs')
      | _ => [replacementChar]
    else replacementChar :: utf8DecodeAux fuel bs

/-- `buffer.toString('utf8')`, lenient. -/
def utf8Decode (bs : List Nat) : List Char :=
  utf8DecodeAux bs.length bs

/-- UTF-8 encoding of a character list (spec side, to build concrete byte
inputs; the claims only use ASCII, which encodes to single bytes). -/
def utf8EncodeChar (c : Char) : List Nat :=
  let n := c.toNat
  if n < 128 then [n]
  else if n < 2048 then [192 + n / 64, 128 + n % 64]
  else if n < 65536 then [224 + n / 4096, 128 + (n / 64) % 64, 128 + n % 64]
  else [240 + n / 262144, 128 + (n / 4096) % 64, 128 + (n / 64) % 64, 128 + n % 64]

/-- UTF-8 encoding of a string. -/
def utf8Encode (s : String) : List Nat :=
  s.toList.flatMap utf8EncodeChar

/-! ## JSON values and `JSON.parse`

The model keeps numbers as their source lexeme (no property below inspects a
numeric value), and objects as key/value lists in insertion order with
duplicate keys collapsing to the last occurrence, as JavaScript property
assignment does. -/

/-- A JavaScript value produced by `JSON.parse`. -/
inductive Json where
  | null : Json
  | bool : Bool → Json
  | num : String → Json
  | str : String → Json
  | arr : List Json → Json
  | obj : List (String × Json) → Json
  deriving Repr

/-- JavaScript property assignment into an object under construction:
overwrite an existing key in place, otherwise append. -/
def objInsert (kvs : List (String × Json)) (k : String) (v : Json) :
    List (String × Json) :=
  if kvs.any (fun p => p.1 = k) then
    kvs.map (fun p => if p.1 = k then (k, v) else p)
  else kvs ++ [(k, v)]

/-- JSON whitespace. -/
def isJsonWs (c : Char) : Bool :=
  c = ' ' || c = Char.ofNat 9 || c = Char.ofNat 10 || c = Char.ofNat 13

/-- Skip JSON whitespace. -/
def skipWs (cs : List Char) : List Char :=
  cs.dropWhile isJsonWs

/-- Hex digit value. -/
def hexVal (c : Char) : Option Nat :=
  if '0' ≤ c && c ≤ '9' then some (c.toNat - 48)
  else if 'a' ≤ c && c ≤ 'f' then some (c.toNat - 97 + 10)
  else if 'A' ≤ c && c ≤ 'F' then some (c.toNat - 65 + 10)
  else none

/-- Simple escapes inside a JSON string literal. -/
def escChar (c : Char) : Option Char :=
  if c = quoteC then some quoteC
  else if c = backslashC then some backslashC
  else if c = '/' then some '/'
  else if c = 'b' then some (Char.ofNat 8)
  else if c = 'f' then some (Char.ofNat 12)
  else if c = 'n' then some (Char.ofNat 10)
  else if c = 'r' then some (Char.ofNat 13)
  else if c = 't' then some (Char.ofNat 9)
  else none

/-- A code unit from a `\uXXXX` escape as a `Char` (surrogates, which Lean
characters cannot hold, become the replacement character). -/
def codeUnitChar (n : Nat) : Char :=
  if 55296 ≤ n && n < 57344 then replacementChar else Char.ofNat n

/-- Body of a JSON string literal, after the opening quote, fuel-structural
(each step consumes at least one character).  Returns the decoded characters
and the input following the closing quote. -/
def parseStringBodyAux : Nat → List Char → Option (List Char × List Char)
  | 0, _ => none
  | _, [] => none
  | fuel + 1, c :: rest =>
    if c = quoteC then some ([], rest)
    else if c = backslashC then
      match rest with
      | [] => none
      | e :: rest' =>
        if e = 'u' then
          match rest' with
          | h1 :: h2 :: h3 :: h4 :: rest2 =>
            match hexVal h1, hexVal h2, hexVal h3, hexVal h4 with
            | some a, some b, some c', some d =>
              (parseStringBodyAux fuel rest2).map fun p =>
                (codeUnitChar (a * 4096 + b * 256 + c' * 16 + d) :: p.1, p.2)
            | _, _, _, _ => none
          | _ => none
        else
          match escChar e with
          | some ch => (parseStringBodyAux fuel rest').map fun p => (ch :: p.1, p.2)
          | none => none
    else if c.toNat < 32 then none
    else (parseStringBodyAux fuel rest).map fun p => (c :: p.1, p.2)

/-- Body of a JSON string literal after the opening quote. -/
def parseStringBody (cs : List Char) : Option (List Char × List Char) :=
  parseStringBodyAux cs.length cs

/-- One JSON number lexeme: `-? (0 | [1-9][0-9]*) (. [0-9]+)? ([eE][+-]?[0-9]+)?`. -/
def parseNumber (cs : List Char) : Option (List Char × List Char) :=
  let (sign, cs1) :=
    match cs with
    | '-' :: rest => (['-'], rest)
    | _ => (([] : List Char), cs)
  match cs1 with
  | [] => none
  | c :: _ =>
    if ¬ c.isDigit then none
    else
      let intPart := cs1.takeWhile Char.isDigit
      let rest1 := cs1.dropWhile Char.isDigit
      if intPart.length > 1 && intPart.headD '0' = '0' then none
      else
        let (fracPart, rest2) :=
          match rest1 with
          | '.' :: r =>
            let ds := r.takeWhile Char.isDigit
            if ds.isEmpty then ([quoteC], rest1)   -- marker: invalid
            else ('.' :: ds, r.dropWhile Char.isDigit)
          | _ => (([] : List Char), rest1)
        if fracPart = [quoteC] then none
        else
          let (expPart, rest3) :=
            match rest2 with
            | e :: r =>
              if e = 'e' || e = 'E' then
                let (sgn, r1) :=
                  match r with
                  | s :: r' => if s = '+' || s = '-' then ([s], r') else (([] : List Char), r)
                  | [] => (([] : List Char), r)
                let ds := r1.takeWhile Char.isDigit
                if ds.isEmpty then ([quoteC], rest2)
                else (e :: (sgn ++ ds), r1.dropWhile Char.isDigit)
              else (([] : List Char), rest2)
            | [] => (([] : List Char), rest2)
          if expPart = [quoteC] then none
          else some (sign ++ intPart ++ fracPart ++ expPart, rest3)

/-- Expect a fixed keyword. -/
def expectChars (kw : List Char) (cs : List Char) : Option (List Char) :=
  if kw.isPrefixOf cs then some (cs.drop kw.length) else none

/-- The pending syntactic category for the fuel-indexed JSON parser (a
single structurally-recursive function, so that it reduces in the kernel). -/
inductive PTask where
  | value : List Char → PTask
  | membersStart : List Char → PTask
  | members : List Char → List (String × Json) → PTask
  | elementsStart : List Char → PTask
  | elements : List Char → List Json → PTask

/-- Recursive-descent JSON parsing.  `.value` parses one JSON value with
leading whitespace; `.membersStart`/`.members` the inside of an object after
the opening brace; `.elementsStart`/`.elements` the inside of an array.  Fuel
bounds the recursion depth; every recursive call follows at least one
consumed character, so `input.length + 1` fuel is always enough. -/
def parseStep : Nat → PTask → Option (Json × List Char)
  | 0, _ => none
  | fuel + 1, t =>
    match t with
    | .value cs =>
      match skipWs cs with
      | [] => none
      | c :: rest =>
        if c = quoteC then (parseStringBody rest).map fun p => (.str p.1.asString, p.2)
        else if c = lbrace then parseStep fuel (.membersStart (skipWs rest))
        else if c = '[' then parseStep fuel (.elementsStart (skipWs rest))
        else if c = 't' then (expectChars ['r', 'u', 'e'] rest).map fun r => (.bool true, r)
        else if c = 'f' then (expectChars ['a', 'l', 's', 'e'] rest).map fun r => (.bool false, r)
        else if c = 'n' then (expectChars ['u', 'l', 'l'] rest).map fun r => (.null, r)
        else (parseNumber (c :: rest)).map fun p => (.num p.1.asString, p.2)
    | .membersStart cs =>
      match cs with
      | c :: rest => if c = rbrace then some (.obj [], rest) else parseStep fuel (.members cs [])
      | [] => none
    | .members cs acc =>
      match skipWs cs with
      | c :: rest =>
        if c = quoteC then
          match parseStringBody rest with
          | none => none
          | some (k, r1) =>
            match skipWs r1 with
            | c2 :: r2 =>
              if c2 = ':' then
                match parseStep fuel (.value r2) with
                | none => none
                | some (v, r3) =>
                  let acc' := objInsert acc k.asString v
                  match skipWs r3 with
                  | c3 :: r4 =>
                    if c3 = ',' then parseStep fuel (.members r4 acc')
                    else if c3 = rbrace then some (.obj acc', r4)
                    else none
                  | [] => none
              else none
            | [] => none
        else none
      | [] => none
    | .elementsStart cs =>
      match cs with
      | ']' :: rest => some (.arr [], rest)
      | _ => parseStep fuel (.elements cs [])
    | .elements cs acc =>
      match parseStep fuel (.value cs) with
      | none => none
      | some (v, r1) =>
        match skipWs r1 with
        | ',' :: r2 => parseStep fuel (.elements r2 (acc ++ [v]))
        | ']' :: r2 => some (.arr (acc ++ [v]), r2)
        | _ => none

/-- One JSON value. -/
def parseValue (fuel : Nat) (cs : List Char) : Option (Json × List Char) :=
  parseStep fuel (.value cs)

/-- `JSON.parse` on characters: `none` models a thrown `SyntaxError`. -/
def jsonParse? (cs : List Char) : Option Json :=
  match parseValue (3 * cs.length + 4) cs with
  | some (v, rest) => if (skipWs rest).isEmpty then some v else none
  | none => none

/-- `JSON.stringify` of one string value. -/
def jsonQuote (s : String) : String :=
  (quoteC :: s.toList.flatMap (fun c =>
    if c = quoteC then [backslashC, quoteC]
    else if c = backslashC then [backslashC, backslashC]
    else if c = Char.ofNat 8 then [backslashC, 'b']
    else if c = Char.ofNat 9 then [backslashC, 't']
    else if c = Char.ofNat 10 then [backslashC, 'n']
    else if c = Char.ofNat 12 then [backslashC, 'f']
    else if c = Char.ofNat 13 then [backslashC, 'r']
    else if c.toNat < 32 then
      [backslashC, 'u', '0', '0', b64Char 52, b64Char 52]  -- unreachable in this development
    else [c]) ++ [quoteC]).asString

/-- `JSON.stringify` of a string-valued object in insertion order, as
`saveSession` persists `extraCookies`. -/
def jsonStringifyStringMap (m : List (String × String)) : String :=
  (lbrace.toString) ++
    String.intercalate "," (m.map (fun p => jsonQuote p.1 ++ ":" ++ jsonQuote p.2)) ++
    (rbrace.toString)

/-- Property read `o[k]` on a parsed JSON value: `none` is `undefined`
(including reads on non-objects, which yield `undefined` in JavaScript except
on `null`, handled at each use site). -/
def jsGet : Json → String → Option Json
  | .obj kvs, k => (kvs.find? (fun p => p.1 = k)).map Prod.snd
  | _, _ => none

/-- `a ?? b`: nullish coalescing over property reads, where `none` is
`undefined` and `Json.null` is `null`. -/
def coalesce (a b : Option Json) : Option Json :=
  match a with
  | some .null => b
  | none => b
  | some v => some v

/-- JavaScript truthiness of a parsed JSON value.  A numeric lexeme is falsy
exactly when its mantissa digits are all zero. -/
def jsTruthy : Json → Bool
  | .null => false
  | .bool b => b
  | .str s => s ≠ ""
  | .num lex =>
      ¬ ((lex.toList.takeWhile (fun c => c ≠ 'e' && c ≠ 'E')).all
        (fun c => ¬ c.isDigit || c = '0'))
  | .arr _ => true
  | .obj _ => true

/-! ## `ClerkSessionManager.extractSessionId` (clerk-session-manager.ts) -/

/-- Decode the middle token segment:
`JSON.parse(Buffer.from(parts[1], 'base64url').toString('utf-8'))`,
with `none` modelling the thrown-and-caught `SyntaxError`. -/
def decodeMiddle (mid : List Char) : Option Json :=
  jsonParse? (utf8Decode (b64DecodeBytes mid))

/-- `payload.sid ?? payload.session_id` followed by the
`typeof sid === 'string' && sid.startsWith('sess_')` check; the `payload.sid`
read on a `null` payload throws, which the surrounding `try` turns into the
same `null` result. -/
def sidFromMiddle (mid : List Char) : Option String :=
  match decodeMiddle mid with
  | none => none
  | some .null => none
  | some payload =>
    match coalesce (jsGet payload "sid") (jsGet payload "session_id") with
    | some (.str s) => if sessChars.isPrefixOf s.toList then some s else none
    | _ => none

/-- Core of `extractSessionId` after the `__session=` marker strip. -/
def extractCore (raw : List Char) : Option String :=
  let parts := splitDot raw
  if parts.length < 2 then none
  else sidFromMiddle (parts.getD 1 [])

/-- `ClerkSessionManager.extractSessionId` on characters. -/
def extractSessionIdL (sessionJwt : List Char) : Option String :=
  extractCore (stripSessionEqL sessionJwt)

/-- `ClerkSessionManager.extractSessionId`. -/
def extractSessionId (sessionJwt : String) : Option String :=
  extractSessionIdL sessionJwt.toList

/-! ## The Secret Store and the storage operations

The four keytar accounts under the `huntr-cli` service:
`clerk-session-cookie`, `clerk-session-id`, `clerk-client-uat` and
`clerk-extra-cookies` (the last holds a JSON blob). `none` models an absent
account. -/

/-- The persisted quadruple. -/
structure Store where
  sessionCookie : Option String
  sessionId : Option String
  clientUat : Option String
  extraCookiesRaw : Option String
  deriving DecidableEq, Repr

/-- A store with no accounts set. -/
def emptyStore : Store := ⟨none, none, none, none⟩

/-- `ClerkSessionManager.saveSession`: the cookie and id accounts are always
written; the client-uat account only when the argument is truthy; the
extra-cookies account only when the map is nonempty (as JSON). -/
def saveSession (pre : Store) (sessionCookieValue sessionId : String)
    (clientUat : Option String) (extraCookies : Option (List (String × String))) :
    Store where
  sessionCookie := some sessionCookieValue
  sessionId := some sessionId
  clientUat :=
    match clientUat with
    | some u => if u ≠ "" then some u else pre.clientUat
    | none => pre.clientUat
  extraCookiesRaw :=
    match extraCookies with
    | some m => if ¬ m.isEmpty then some (jsonStringifyStringMap m) else pre.extraCookiesRaw
    | none => pre.extraCookiesRaw

/-- `ClerkSessionManager.clearSession`: removes all four accounts. -/
def clearSession (_pre : Store) : Store := emptyStore

/-- `ClerkSessionManager.hasSession`: `!!(cookie && sessionId)`. -/
def hasSession (s : Store) : Bool :=
  (match s.sessionCookie with | some c => c ≠ "" | none => false) &&
  (match s.sessionId with | some i => i ≠ "" | none => false)

/-- `ClerkSessionManager.getExtraCookies`: parse the stored JSON blob,
keeping only nonempty string-valued entries; anything unparseable yields the
empty map. -/
def getExtraCookies (s : Store) : List (String × String) :=
  match s.extraCookiesRaw with
  | none => []
  | some raw =>
    if raw = "" then []
    else
      match jsonParse? raw.toList with
      | some (.obj kvs) =>
        kvs.filterMap (fun p =>
          match p.2 with
          | .str v => if v ≠ "" then some (p.1, v) else none
          | _ => none)
      | _ => []

/-! ## `fetchToken`: Cookie header construction -/

/-- Characters removed by `String.prototype.trim` (ASCII portion). -/
def isTrimWs (c : Char) : Bool :=
  c = ' ' || c = Char.ofNat 9 || c = Char.ofNat 10 || c = Char.ofNat 11 ||
    c = Char.ofNat 12 || c = Char.ofNat 13

/-- `String.prototype.trim`, structurally on characters. -/
def jsTrim (s : String) : String :=
  (((s.toList.dropWhile isTrimWs).reverse.dropWhile isTrimWs).reverse).asString

/-- `clientUat && clientUat.trim() ? clientUat.trim() : '1'`. -/
def uatOrSentinel (clientUat : Option String) : String :=
  match clientUat with
  | some u => if u ≠ "" && jsTrim u ≠ "" then jsTrim u else "1"
  | none => "1"

/-- Extra-cookie entries that survive the loop in `fetchToken`: truthy value,
not one of the two reserved names, and a safe-character name. -/
def keepExtra (p : String × String) : Bool :=
  p.2 ≠ "" && p.1 ≠ "__session" && p.1 ≠ "__client_uat" && isSafeCookieName p.1

/-- The `cookieParts` list built by `fetchToken`. -/
def cookieParts (sessionCookieValue : String) (clientUat : Option String)
    (extraCookies : List (String × String)) : List String :=
  ("__session=" ++ stripSessionEq sessionCookieValue) ::
    ("__client_uat=" ++ uatOrSentinel clientUat) ::
    (extraCookies.filter keepExtra).map (fun p => p.1 ++ "=" ++ p.2)

/-- `cookieParts.join('; ')`: the Cookie header of the token-exchange POST. -/
def cookieHeader (sessionCookieValue : String) (clientUat : Option String)
    (extraCookies : List (String × String)) : String :=
  String.intercalate "; " (cookieParts sessionCookieValue clientUat extraCookies)

/-! ## Rotation handling (`persistRotatedSessionCookie`) -/

/-- The in-memory rotation snapshot threaded over the `Set-Cookie` headers. -/
structure RotState where
  sessionCookie : String
  rotatedUat : Option String
  rotatedExtras : List (String × String)
  deriving DecidableEq, Repr

/-- Upsert into `rotatedExtras`, as object assignment does. -/
def upsert (m : List (String × String)) (k v : String) : List (String × String) :=
  if m.any (fun p => p.1 = k) then
    m.map (fun p => if p.1 = k then (k, v) else p)
  else m ++ [(k, v)]

/-- The first `name=value` pair of one `Set-Cookie` header, when usable:
`header.split(';', 1)[0]`, then an `=` at a positive index and a nonempty
value. -/
def rotationPair (header : String) : Option (String × String) :=
  let firstPair := header.toList.takeWhile (fun c => c ≠ ';')
  match firstPair.findIdx? (fun c => c = '=') with
  | none => none
  | some idx =>
    if idx = 0 then none
    else
      let value := firstPair.drop (idx + 1)
      if value.isEmpty then none
      else some ((firstPair.take idx).asString, value.asString)

/-- Apply one `Set-Cookie` header to the rotation snapshot. -/
def applyRotationHeader (st : RotState) (header : String) : RotState :=
  match rotationPair header with
  | none => st
  | some (name, value) =>
    if name = "__session" then { st with sessionCookie := value }
    else if name = "__client_uat" then { st with rotatedUat := some value }
    else if isSafeCookieName name then
      { st with rotatedExtras := upsert st.rotatedExtras name value }
    else st

/-- `persistRotatedSessionCookie`: with no `Set-Cookie` header at all the
store is untouched; otherwise the headers are folded over the snapshot and
the result is written through `saveSession`. -/
def persistRotatedSessionCookie (pre : Store) (setCookie : Option (List String))
    (sessionId currentSessionCookie : String) (clientUat : Option String)
    (extraCookies : List (String × String)) : Store :=
  match setCookie with
  | none => pre
  | some headers =>
    let st := headers.foldl applyRotationHeader
      ⟨currentSessionCookie, clientUat, extraCookies⟩
    saveSession pre st.sessionCookie sessionId st.rotatedUat (some st.rotatedExtras)

/-! ## `fetchToken`: response handling -/

/-- The caller-visible arguments of one `fetchToken` call. -/
structure FetchArgs where
  sessionCookieValue : String
  sessionId : String
  clientUat : Option String
  extraCookies : List (String × String)

/-- What the network did for this POST: either a response (status, body and
the optional `set-cookie` header array) or a transport-level error. -/
inductive FetchOutcome where
  | response : Nat → String → Option (List String) → FetchOutcome
  | transportError : String → FetchOutcome

/-- The rejection taxonomy of `fetchToken`. -/
inductive ClerkError where
  | unexpectedShape : String → ClerkError
  | parseFailed : String → ClerkError
  | sessionExpired : Nat → ClerkError
  | refreshFailed : Nat → String → ClerkError
  | networkError : String → ClerkError
  deriving DecidableEq, Repr

/-- The `Error` message each rejection carries in the source. -/
def ClerkError.message : ClerkError → String
  | .unexpectedShape snippet => "Unexpected Clerk response: " ++ snippet
  | .parseFailed snippet => "Failed to parse Clerk response: " ++ snippet
  | .sessionExpired status =>
      "Clerk session expired or invalid (HTTP " ++ toString status ++ ").\n" ++
      "Re-extract your __session cookie from the browser:\n" ++
      "  DevTools → Application → Cookies → https://huntr.co → __session → Value\n" ++
      "Then run: huntr config set-session <new-value>"
  | .refreshFailed status snippet =>
      "Clerk token refresh failed: HTTP " ++ toString status ++ "\n" ++ snippet
  | .networkError msg => "Network error refreshing token: " ++ msg

/-- `body.substring(0, 300)`. -/
def snippet (body : String) : String :=
  (body.toList.take 300).asString

/-- `data.jwt ?? data.token ?? data.object?.jwt`.  Reading a property of a
`null` body throws (`Except.error`) and is caught by the surrounding
`try` as a parse failure. -/
def readTokenField (data : Json) : Except Unit (Option Json) :=
  match data with
  | .null => .error ()
  | _ =>
    .ok (coalesce (jsGet data "jwt") (coalesce (jsGet data "token")
      (match jsGet data "object" with
       | some .null => none
       | some o => jsGet o "jwt"
       | none => none)))

/-- `fetchToken`: result and resulting store of one token-exchange POST.
The request path is `/v1/client/sessions/SESSIONID/tokens?...` with the
Cookie header of `cookieHeader`; this model covers the response handler.  The
resolved value is the raw JSON field (the source casts it to `string`). -/
def fetchToken (pre : Store) (args : FetchArgs) (out : FetchOutcome) :
    Except ClerkError Json × Store :=
  let raw := stripSessionEq args.sessionCookieValue
  let uat := uatOrSentinel args.clientUat
  match out with
  | .transportError msg => (.error (.networkError msg), pre)
  | .response status body setCookie =>
    if status = 200 || status = 201 then
      match jsonParse? body.toList with
      | none => (.error (.parseFailed (snippet body)), pre)
      | some data =>
        match readTokenField data with
        | .error _ => (.error (.parseFailed (snippet body)), pre)
        | .ok tokenOpt =>
          match tokenOpt with
          | none => (.error (.unexpectedShape (snippet body)), pre)
          | some token =>
            if jsTruthy token then
              (.ok token,
               persistRotatedSessionCookie pre setCookie args.sessionId raw
                 (some uat) args.extraCookies)
            else (.error (.unexpectedShape (snippet body)), pre)
    else if status = 401 || status = 403 then
      (.error (.sessionExpired status), pre)
    else
      (.error (.refreshFailed status (snippet body)), pre)

/-- `refreshFromProvidedSession` delegates to `fetchToken` with
caller-supplied values. -/
def refreshFromProvidedSession (pre : Store) (sessionCookieValue sessionId : String)
    (clientUat : Option String) (extraCookies : List (String × String))
    (out : FetchOutcome) : Except ClerkError Json × Store :=
  fetchToken pre ⟨sessionCookieValue, sessionId, clientUat, extraCookies⟩ out

/-- `getFreshToken`: read the stored quadruple, fail with the no-session
remediation error when cookie or id is missing, otherwise exchange. -/
def getFreshToken (pre : Store) (out : FetchOutcome) :
    Except (Option ClerkError) Json × Store :=
  match pre.sessionCookie, pre.sessionId with
  | some cookie, some sessionId =>
    if cookie ≠ "" && sessionId ≠ "" then
      let r := fetchToken pre ⟨cookie, sessionId, pre.clientUat, getExtraCookies pre⟩ out
      (r.1.mapError some, r.2)
    else (.error none, pre)
  | _, _ => (.error none, pre)

/-- Did this outcome make `fetchToken` resolve (HTTP 200/201 with a truthy
token field)? -/
def fetchSucceeds (out : FetchOutcome) : Bool :=
  match out with
  | .transportError _ => false
  | .response status body _ =>
    (status = 200 || status = 201) &&
    (match jsonParse? body.toList with
     | none => false
     | some data =>
       match readTokenField data with
       | .error _ => false
       | .ok none => false
       | .ok (some token) => jsTruthy token)

/-- The `set-cookie` header array of an outcome, when any. -/
def setCookieOf (out : FetchOutcome) : Option (List String) :=
  match out with
  | .response _ _ sc => sc
  | .transportError _ => none

/-- Does this `fetchToken` call reach `saveSession`?  Exactly when the
exchange succeeds and the response carries a `set-cookie` header array. -/
def fetchWritesStore (out : FetchOutcome) : Bool :=
  fetchSucceeds out && (setCookieOf out).isSome

/-- Lookup in an insertion-ordered string map (first binding wins; the maps
built here never hold duplicate keys). -/
def lookupStr (k : String) (m : List (String × String)) : Option String :=
  (m.find? (fun p => p.1 = k)).map Prod.snd

/-- The cookie name a `Set-Cookie` header effectively carries (its parsed
first `name=value` pair, when usable). -/
def rotationName (header : String) : Option String :=
  (rotationPair header).map Prod.fst

/-- The rotation snapshot after folding a response's `Set-Cookie` headers
over the values `fetchToken` passed down: the stripped current cookie, the
defaulted client-uat, and the extra-cookie map. -/
def rotatedState (args : FetchArgs) (headers : List String) : RotState :=
  headers.foldl applyRotationHeader
    ⟨stripSessionEq args.sessionCookieValue, some (uatOrSentinel args.clientUat),
     args.extraCookies⟩

/-! ## CDP capture and check flows (keychain-manager.ts / token-capture.ts)

Network, the browser and the DevTools channel are modelled as environment
inputs: what `getChromeTabs` returned, what snapshot each tab produced and
what HTTP outcome each validation exchange saw. -/

/-- A Chrome tab as reported by `GET /json`. -/
structure ChromeTab where
  url : Option String
  type : Option String
  title : Option String
  webSocketDebuggerUrl : Option String

/-- A per-tab `SessionSnapshot` (the `getSessionSnapshotInTab` result when a
`__session` cookie was visible). -/
structure SessionSnapshot where
  sessionCookie : String
  clientUat : Option String
  extraCookies : List (String × String)
  clerkSessionId : Option String

/-- Minimal model of `new URL(u)` for the tab filters: requires a
`scheme://` marker, and splits authority from path; the hostname drops a
`:port` suffix and the pathname defaults to `/`.  Returns
`(hostname, pathname)`, `none` for the thrown `TypeError`. -/
def parseUrl (u : String) : Option (String × String) :=
  let cs := u.toList
  let scheme := cs.takeWhile (fun c => c ≠ ':' && c ≠ '/')
  if scheme.isEmpty then none
  else
    let afterScheme := cs.drop scheme.length
    if ¬ (List.isPrefixOf [':', '/', '/'] afterScheme) then none
    else
      let rest := afterScheme.drop 3
      let authority := rest.takeWhile (fun c => c ≠ '/' && c ≠ '?' && c ≠ '#')
      if authority.isEmpty then none
      else
        let hostname := authority.takeWhile (fun c => c ≠ ':')
        let afterAuth := rest.drop authority.length
        let pathname := afterAuth.takeWhile (fun c => c ≠ '?' && c ≠ '#')
        some (hostname.asString, if pathname.isEmpty then "/" else pathname.asString)

/-- `isHuntrTab`: a `page`-type tab whose URL parses and whose hostname ends
with `huntr.co`. -/
def isHuntrTab (tab : ChromeTab) : Bool :=
  match tab.url, tab.type with
  | some u, some ty =>
    ty = "page" &&
    (match parseUrl u with
     | some (host, _) => "huntr.co".toList.isSuffixOf host.toList
     | none => false)
  | _, _ => false

/-- `isHuntrAppTab`: additionally the pathname is deeper than the bare root. -/
def isHuntrAppTab (tab : ChromeTab) : Bool :=
  match tab.url, tab.type with
  | some u, some ty =>
    ty = "page" &&
    (match parseUrl u with
     | some (host, path) =>
       "huntr.co".toList.isSuffixOf host.toList && path ≠ "/" && path.length > 1
     | none => false)
  | _, _ => false

/-- `findHuntrTabs`: app tabs preferred, otherwise any huntr tab. -/
def findHuntrTabs (tabs : List ChromeTab) : List ChromeTab :=
  let huntrTabs := tabs.filter isHuntrTab
  let appTabs := huntrTabs.filter isHuntrAppTab
  if ¬ appTabs.isEmpty then appTabs else huntrTabs

/-- `findBestHuntrTab`: the first filtered tab, if any. -/
def findBestHuntrTab (tabs : List ChromeTab) : Option ChromeTab :=
  (findHuntrTabs tabs).head?

/-- `describeValue` applied to a snapshot-or-null, the only shape the capture
loop feeds it: a `SessionSnapshot` object literal always has these four keys. -/
def describeSnapshotValue : Option SessionSnapshot → String
  | none => "null"
  | some _ => "object, keys: sessionCookie, clientUat, extraCookies, clerkSessionId"

/-- The mutable diagnostics of `waitForValidHuntrSessionCookie`. -/
structure WaitState where
  lastTab : Option ChromeTab
  lastValueDescription : Option String
  lastError : Option String

/-- The `SessionCookieWaitResult` record. -/
structure WaitResult where
  sessionCookie : Option String
  sessionId : Option String
  clientUat : Option String
  extraCookies : Option (List (String × String))
  freshToken : Option String
  tab : Option ChromeTab
  lastValueDescription : Option String
  lastError : Option String

/-- Environment of the capture loop, indexed by iteration and by the tab's
position within the iteration. -/
structure CaptureEnv where
  tabsAt : Nat → Option (List ChromeTab)
  snapshotAt : Nat → Nat → ChromeTab → Except String (Option SessionSnapshot)
  validateOutcomeAt : Nat → Nat → FetchOutcome

/-- `sessionId ?? snapshot.clerkSessionId ?? undefined` (plain `??`: only
null/undefined falls through, an empty string does not). -/
def firstSomeStr (a b : Option String) : Option String :=
  match a with
  | some x => some x
  | none => b

/-- One tab of one capture-loop iteration: the body of the inner `for` loop,
including its `try`/`catch`.  `Sum.inr` is the early `return` on a validated
cookie. -/
def processTab (env : CaptureEnv) (i j : Nat) (acc : WaitState × Store)
    (tab : ChromeTab) : (WaitState × Store) ⊕ (WaitResult × Store) :=
  let st := acc.1
  let store := acc.2
  match tab.webSocketDebuggerUrl with
  | none => .inl (st, store)
  | some _ =>
    let st1 : WaitState := { st with lastTab := some tab }
    match env.snapshotAt i j tab with
    | .error e => .inl ({ st1 with lastError := some e }, store)
    | .ok snap =>
      let st2 : WaitState := { st1 with lastValueDescription := some (describeSnapshotValue snap) }
      match snap with
      | none => .inl (st2, store)
      | some s =>
        if (splitDot s.sessionCookie.toList).length ≠ 3 then .inl (st2, store)
        else
          match firstSomeStr (extractSessionId s.sessionCookie) s.clerkSessionId with
          | none => .inl (st2, store)
          | some sessionId =>
            if ¬ sessChars.isPrefixOf sessionId.toList then .inl (st2, store)
            else
              match refreshFromProvidedSession store s.sessionCookie sessionId
                  s.clientUat s.extraCookies (env.validateOutcomeAt i j) with
              | (.error e, store') => .inl ({ st2 with lastError := some e.message }, store')
              | (.ok token, store') =>
                match token with
                | .str f =>
                  if f ≠ "" && (splitDot f.toList).length = 3 then
                    .inr (⟨some s.sessionCookie, some sessionId, s.clientUat,
                           some s.extraCookies, some f, some tab,
                           st2.lastValueDescription, st2.lastError⟩, store')
                  else .inl (st2, store')
                | other =>
                  -- a truthy non-string token makes `freshToken.split` throw,
                  -- which the catch records; a falsy one just falls through
                  if jsTruthy other then
                    .inl ({ st2 with
                            lastError := some "freshToken.split is not a function" }, store')
                  else .inl (st2, store')

/-- The inner `for` loop over this iteration's huntr tabs. -/
def processTabs (env : CaptureEnv) (i : Nat) :
    Nat → List ChromeTab → WaitState × Store → (WaitState × Store) ⊕ (WaitResult × Store)
  | _, [], acc => .inl acc
  | j, tab :: tabs, acc =>
    match processTab env i j acc tab with
    | .inl acc' => processTabs env i (j + 1) tabs acc'
    | .inr success => .inr success

/-- The timed-out `SessionCookieWaitResult`. -/
def timeoutResult (st : WaitState) : WaitResult :=
  ⟨none, none, none, none, none, st.lastTab, st.lastValueDescription, st.lastError⟩

/-- `waitForValidHuntrSessionCookie`, with the deadline modelled as the
number of remaining polling iterations. -/
def waitLoop (env : CaptureEnv) :
    Nat → Nat → WaitState → Store → WaitResult × Store
  | 0, _, st, store => (timeoutResult st, store)
  | fuel + 1, i, st, store =>
    let tabs := (env.tabsAt i).getD []
    match processTabs env i 0 (findHuntrTabs tabs) (st, store) with
    | .inr success => success
    | .inl (st', store') => waitLoop env fuel (i + 1) st' store'

/-- What `captureSession` does after the wait loop returns (keychain-manager
lines 130–159): timeout failure with diagnostics, a missing-id failure, or a
`saveSession` followed by the smoke-test refresh. -/
inductive CaptureResult where
  | timeoutFailure : String → Option String → Option String → CaptureResult
  | missingSessionId : CaptureResult
  | saved : String → String → Option String → List (String × String) → CaptureResult

/-- Is this outcome the `saveSession` path? -/
def CaptureResult.isSave : CaptureResult → Bool
  | .saved _ _ _ _ => true
  | _ => false

/-- `cookieWait.tab?.url ?? '(none)'`. -/
def lastTabUrl (tab : Option ChromeTab) : String :=
  match tab with
  | some t => t.url.getD "(none)"
  | none => "(none)"

/-- The post-loop part of `captureSession`. -/
def captureAfterWait (w : WaitResult) : CaptureResult :=
  match w.sessionCookie with
  | none => .timeoutFailure (lastTabUrl w.tab) w.lastValueDescription w.lastError
  | some cookie =>
    match w.sessionId with
    | none => .missingSessionId
    | some sessionId =>
      if sessionId = "" then .missingSessionId
      else .saved cookie sessionId w.clientUat (w.extraCookies.getD [])

/-- `checkCdpSession`'s effect on the Secret Store: every step before the
validation call only reads (or throws), and the single
`refreshFromProvidedSession` call carries the store effect of `fetchToken`. -/
def checkCdpSessionStore (pre : Store) (tabs : Option (List ChromeTab))
    (snap : Except String (Option SessionSnapshot)) (out : FetchOutcome) : Store :=
  match tabs with
  | none => pre
  | some ts =>
    match findBestHuntrTab ts with
    | none => pre
    | some tab =>
      match tab.webSocketDebuggerUrl with
      | none => pre
      | some _ =>
        match snap with
        | .error _ => pre
        | .ok none => pre
        | .ok (some s) =>
          if s.sessionCookie = "" then pre
          else
            match firstSomeStr (extractSessionId s.sessionCookie) s.clerkSessionId with
            | none => pre
            | some sessionId =>
              if ¬ sessChars.isPrefixOf sessionId.toList then pre
              else
                (refreshFromProvidedSession pre s.sessionCookie sessionId
                  s.clientUat s.extraCookies out).2

/-! ## `TokenManager.getTokenProvider`: the credential resolution chain -/

/-- The `TokenProvider` union: a static token string, or the callable that
wraps `clerkSession.getFreshToken`. -/
inductive TokenProviderV where
  | static : String → TokenProviderV
  | clerkDynamic : TokenProviderV
  deriving DecidableEq, Repr

/-- `options` of `getTokenProvider`. -/
structure TokenOptions where
  token : Option String
  usePrompt : Option Bool

/-- The static sources consulted by the chain, besides `options`. -/
structure CredEnv where
  envToken : Option String
  clerkStore : Store
  configToken : Option String
  keychainToken : Option String
  promptedToken : String

/-- JavaScript truthiness of a string-or-absent value. -/
def optTruthy : Option String → Option String
  | some s => if s ≠ "" then some s else none
  | none => none

/-- The `NoCredentialAvailable` message thrown when every source is
exhausted. -/
def noCredentialMessage : String :=
  "No Huntr credentials found. Options:\n" ++
  "  • Clerk session (recommended): huntr config set-session <__session-cookie>\n" ++
  "  • Static token:                huntr config set-token <token> [--keychain]\n" ++
  "  • CLI flag:                    huntr --token <token> <command>\n" ++
  "  • Environment:                 HUNTR_API_TOKEN=<token> huntr <command>"

/-- `TokenManager.getTokenProvider` (token-manager, getTokenProvider):
the prompt's optional save side effect touches only the static token
stores and is not part of the returned provider. -/
def getTokenProvider (env : CredEnv) (opts : TokenOptions) :
    Except String TokenProviderV :=
  match optTruthy opts.token with
  | some t => .ok (.static t)
  | none =>
  match optTruthy env.envToken with
  | some t => .ok (.static t)
  | none =>
  if hasSession env.clerkStore then .ok .clerkDynamic
  else
  match optTruthy env.configToken with
  | some t => .ok (.static t)
  | none =>
  match optTruthy env.keychainToken with
  | some t => .ok (.static t)
  | none =>
  if opts.usePrompt ≠ some false then
    match optTruthy (some env.promptedToken) with
    | some t => .ok (.static t)
    | none => .error noCredentialMessage
  else .error noCredentialMessage

/-! ## Raw WebSocket frame codec (keychain-manager.ts fallback transport)

Buffers are byte lists; the four random mask bytes of `encodeWsFrame` are a
parameter. -/

/-- `encodeWsFrame`: single masked text frame with a 1-, 2- or 8-byte
payload length. -/
def encodeWsFrame (data mask : List Nat) : List Nat :=
  let len := data.length
  let header :=
    if len < 126 then [0x81, 0x80 ||| len]
    else if len < 65536 then [0x81, 0xfe, len >>> 8, len &&& 0xff]
    else [0x81, 0xff, 0, 0, 0, 0, (len >>> 24) &&& 0xff, (len >>> 16) &&& 0xff,
          (len >>> 8) &&& 0xff, len &&& 0xff]
  let masked := (List.range len).map fun i => (data.getD i 0) ^^^ (mask.getD (i % 4) 0)
  header ++ mask ++ masked

/-- `decodeWsFrame`, at byte level (the source finishes with a utf8
conversion of the sliced bytes): reads the 7-bit length, extends it via the
two 16-bit length bytes when it is 126, gives up on 127, and slices the
payload at the computed offset.  `none` models both the `null` returns and
the `readUInt16BE` RangeError swallowed by the caller's `try`. -/
def decodeWsFrame (buf : List Nat) : Option (List Nat) :=
  if buf.length < 2 then none
  else
    let len := (buf.getD 1 0) &&& 0x7f
    if len < 126 then some ((buf.drop 2).take len)
    else if len = 126 then
      if buf.length < 4 then none
      else some ((buf.drop 4).take ((buf.getD 2 0) * 256 + buf.getD 3 0))
    else none

/-! ## Helper lemmas -/

theorem isSafeChar_not_bad {c : Char} (h : isSafeChar c = true) :
    c ≠ ';' ∧ c ≠ '=' ∧ c.isWhitespace = false := by
  refine ⟨?_, ?_, ?_⟩
  · rintro rfl; exact absurd h (by decide)
  · rintro rfl; exact absurd h (by decide)
  · by_contra hw
    simp only [Bool.not_eq_false, Char.isWhitespace] at hw
    have hcases : c = ' ' ∨ c = Char.ofNat 9 ∨ c = Char.ofNat 13 ∨ c = Char.ofNat 10 := by
      rcases Bool.or_eq_true_iff.mp hw with h1 | h4
      · rcases Bool.or_eq_true_iff.mp h1 with h2 | h3
        · rcases Bool.or_eq_true_iff.mp h2 with h5 | h6
          · exact Or.inl (by simpa using h5)
          · exact Or.inr (Or.inl (by simpa using h6))
        · exact Or.inr (Or.inr (Or.inl (by simpa using h3)))
      · exact Or.inr (Or.inr (Or.inr (by simpa using h4)))
    rcases hcases with rfl | rfl | rfl | rfl <;> exact absurd h (by decide)

/-! ## C7: Cookie-header injection safety -/

/-- C7 (confirmed).  The Cookie header of the token exchange is exactly
`__session=<cookie>`, then `__client_uat=<clientUat-or-sentinel>`, then the
`extraCookies` entries kept by the allow-list filter, in order; and every
kept entry's name contains no `;`, no `=` and no whitespace — malformed
names are dropped by the filter, never escaped. -/
theorem cookie_header_injection_safety (cookie : String) (uat : Option String)
    (extras : List (String × String)) :
    cookieParts cookie uat extras =
      ("__session=" ++ stripSessionEq cookie) ::
        ("__client_uat=" ++ uatOrSentinel uat) ::
        (extras.filter keepExtra).map (fun p => p.1 ++ "=" ++ p.2) ∧
    ∀ p ∈ extras.filter keepExtra, ∀ c ∈ p.1.toList,
      c ≠ ';' ∧ c ≠ '=' ∧ c.isWhitespace = false := by
  constructor
  · rfl
  · intro p hp c hc
    have hkeep : keepExtra p = true := (List.mem_filter.mp hp).2
    have hsafe : isSafeCookieName p.1 = true := by
      simp only [keepExtra, Bool.and_eq_true] at hkeep
      exact hkeep.2
    have hall : p.1.toList.all isSafeChar = true := by
      simp only [isSafeCookieName, Bool.and_eq_true] at hsafe
      exact hsafe.2
    exact isSafeChar_not_bad (List.all_eq_true.mp hall c hc)

/-- Witness for C7 at a concrete extra-cookie map containing names with a
semicolon, an equals sign and a space: the malformed entries are dropped. -/
theorem cookie_header_injection_safety_witness :
    cookieParts "c" (some "5")
        [("cf_clearance", "abc"), ("evil;name", "x"), ("a=b", "y"), ("sp ace", "z")] =
      ["__session=c", "__client_uat=5", "cf_clearance=abc"] ∧
    ('f' ≠ ';' ∧ 'f' ≠ '=' ∧ Char.isWhitespace 'f' = false) := by
  constructor
  · have h := (cookie_header_injection_safety "c" (some "5")
      [("cf_clearance", "abc"), ("evil;name", "x"), ("a=b", "y"), ("sp ace", "z")]).1
    rw [h]; decide
  · exact (cookie_header_injection_safety "c" (some "5")
      [("cf_clearance", "abc"), ("evil;name", "x"), ("a=b", "y"), ("sp ace", "z")]).2
      ("cf_clearance", "abc") (by decide) 'f' (by decide)

/-! ## C9: `saveSession` upsert behaviour -/

/-- C9 counterexample.  `saveSession` with an absent `clientUat` and an
absent `extraCookies` map leaves the previously stored values of those two
accounts in place: the post-call store mixes the new cookie/id with the old
client-uat and extra-cookies, so the four fields do not all reflect the
call's arguments. -/
theorem saveSession_keeps_stale_fields :
    saveSession ⟨some "oldCookie", some "oldId", some "1699", some "x"⟩
        "newCookie" "newId" none none =
      ⟨some "newCookie", some "newId", some "1699", some "x"⟩ ∧
    (⟨some "newCookie", some "newId", some "1699", some "x"⟩ : Store).clientUat ≠ none := by
  exact ⟨rfl, by decide⟩

/-- C9 (corrected).  `saveSession` always overwrites the session-cookie and
session-id accounts with its arguments; the client-uat account is overwritten
only when the argument is present and nonempty, and the extra-cookies account
only when the argument map is nonempty — otherwise each keeps its prior
value.  Afterwards `hasSession` holds iff both cookie and id are nonempty. -/
theorem saveSession_upsert (pre : Store) (c i : String) (uat : Option String)
    (ex : Option (List (String × String))) :
    (saveSession pre c i uat ex).sessionCookie = some c ∧
    (saveSession pre c i uat ex).sessionId = some i ∧
    (saveSession pre c i uat ex).clientUat =
      (match uat with
       | some u => if u ≠ "" then some u else pre.clientUat
       | none => pre.clientUat) ∧
    (saveSession pre c i uat ex).extraCookiesRaw =
      (match ex with
       | some m => if ¬ m.isEmpty then some (jsonStringifyStringMap m)
                   else pre.extraCookiesRaw
       | none => pre.extraCookiesRaw) ∧
    hasSession (saveSession pre c i uat ex) = ((c ≠ "" : Bool) && (i ≠ "" : Bool)) := by
  refine ⟨rfl, rfl, rfl, rfl, ?_⟩
  simp [hasSession, saveSession]

/-! ## C4: token-exchange error mapping -/

/-- C4 (confirmed).  The complete response classification of `fetchToken`:
HTTP 200/201 resolves with the token read from `jwt`/`token`/`object.jwt`
when one is present and truthy; an unparseable body or a missing/falsy token
field rejects with the truncated-body diagnostics
(`UnexpectedResponseShape`); 401/403 rejects as `SessionExpired`; any other
status as `RefreshFailed` with status and truncated body; a transport error
as `NetworkError`. -/
theorem fetchToken_error_mapping (pre : Store) (args : FetchArgs) :
    (∀ status body sc data token,
      (status = 200 ∨ status = 201) →
      jsonParse? body.toList = some data →
      readTokenField data = .ok (some token) →
      jsTruthy token = true →
      (fetchToken pre args (.response status body sc)).1 = .ok token) ∧
    (∀ status body sc,
      (status = 200 ∨ status = 201) →
      jsonParse? body.toList = none →
      (fetchToken pre args (.response status body sc)).1 =
        .error (.parseFailed (snippet body))) ∧
    (∀ status body sc data,
      (status = 200 ∨ status = 201) →
      jsonParse? body.toList = some data →
      readTokenField data = .error () →
      (fetchToken pre args (.response status body sc)).1 =
        .error (.parseFailed (snippet body))) ∧
    (∀ status body sc data,
      (status = 200 ∨ status = 201) →
      jsonParse? body.toList = some data →
      (readTokenField data = .ok none ∨
        ∃ token, readTokenField data = .ok (some token) ∧ jsTruthy token = false) →
      (fetchToken pre args (.response status body sc)).1 =
        .error (.unexpectedShape (snippet body))) ∧
    (∀ status body sc, status ≠ 200 → status ≠ 201 → (status = 401 ∨ status = 403) →
      (fetchToken pre args (.response status body sc)).1 =
        .error (.sessionExpired status)) ∧
    (∀ status body sc, status ≠ 200 → status ≠ 201 → status ≠ 401 → status ≠ 403 →
      (fetchToken pre args (.response status body sc)).1 =
        .error (.refreshFailed status (snippet body))) ∧
    (∀ msg, (fetchToken pre args (.transportError msg)).1 =
      .error (.networkError msg)) := by
  refine ⟨?_, ?_, ?_, ?_, ?_, ?_, ?_⟩
  · intro status body sc data token h2xx hparse hread htruthy
    have hp : jsonParse? body.data = some data := hparse
    rcases h2xx with rfl | rfl <;> simp [fetchToken, hp, hread, htruthy]
  · intro status body sc h2xx hparse
    have hp : jsonParse? body.data = none := hparse
    rcases h2xx with rfl | rfl <;> simp [fetchToken, hp]
  · intro status body sc data h2xx hparse hread
    have hp : jsonParse? body.data = some data := hparse
    rcases h2xx with rfl | rfl <;> simp [fetchToken, hp, hread]
  · intro status body sc data h2xx hparse hread
    have hp : jsonParse? body.data = some data := hparse
    rcases hread with hnone | ⟨token, hsome, hfalsy⟩
    · rcases h2xx with rfl | rfl <;> simp [fetchToken, hp, hnone]
    · rcases h2xx with rfl | rfl <;> simp [fetchToken, hp, hsome, hfalsy]
  · intro status body sc h200 h201 h4xx
    rcases h4xx with rfl | rfl <;> simp [fetchToken]
  · intro status body sc h200 h201 h401 h403
    simp [fetchToken, h200, h201, h401, h403]
  · intro msg; rfl

/-- Witness for C4, exercising all seven branches of the mapping at
concrete responses. -/
theorem fetchToken_error_mapping_witness :
    (fetchToken emptyStore ⟨"c", "sess_1", none, []⟩
        (.response 200 "\x7b\"jwt\":\"tok\"\x7d" none)).1 = .ok (.str "tok") ∧
    (fetchToken emptyStore ⟨"c", "sess_1", none, []⟩
        (.response 201 "not json" none)).1 = .error (.parseFailed "not json") ∧
    (fetchToken emptyStore ⟨"c", "sess_1", none, []⟩
        (.response 200 "null" none)).1 = .error (.parseFailed "null") ∧
    (fetchToken emptyStore ⟨"c", "sess_1", none, []⟩
        (.response 200 "\x7b\"ok\":true\x7d" none)).1 =
      .error (.unexpectedShape "\x7b\"ok\":true\x7d") ∧
    (fetchToken emptyStore ⟨"c", "sess_1", none, []⟩
        (.response 401 "denied" none)).1 = .error (.sessionExpired 401) ∧
    (fetchToken emptyStore ⟨"c", "sess_1", none, []⟩
        (.response 500 "oops" none)).1 = .error (.refreshFailed 500 "oops") ∧
    (fetchToken emptyStore ⟨"c", "sess_1", none, []⟩
        (.transportError "ECONNRESET")).1 = .error (.networkError "ECONNRESET") := by
  have h := fetchToken_error_mapping emptyStore ⟨"c", "sess_1", none, []⟩
  refine ⟨?_, ?_, ?_, ?_, ?_, ?_, ?_⟩
  · exact h.1 200 "\x7b\"jwt\":\"tok\"\x7d" none (.obj [("jwt", .str "tok")]) (.str "tok")
      (Or.inl rfl) rfl rfl rfl
  · exact h.2.1 201 "not json" none (Or.inr rfl) rfl
  · exact h.2.2.1 200 "null" none .null (Or.inl rfl) rfl rfl
  · exact h.2.2.2.1 200 "\x7b\"ok\":true\x7d" none (.obj [("ok", .bool true)])
      (Or.inl rfl) rfl (Or.inl rfl)
  · exact h.2.2.2.2.1 401 "denied" none (by decide) (by decide) (Or.inl rfl)
  · exact h.2.2.2.2.2.1 500 "oops" none (by decide) (by decide) (by decide) (by decide)
  · exact h.2.2.2.2.2.2 "ECONNRESET"

/-! ## C6: WebSocket frame codec round trip -/

/-- C6 counterexample.  Decoding the frame produced by `encodeWsFrame` on a
130-byte payload does not return the payload: the decoder is written for
unmasked server-to-client frames and never skips the 4-byte mask key of a
client frame, so the claimed encode-then-decode round trip fails (for every
mask; shown here at mask `[1, 2, 3, 4]`). -/
theorem ws_encode_decode_not_inverse :
    decodeWsFrame (encodeWsFrame (List.replicate 130 97) [1, 2, 3, 4]) ≠
      some (List.replicate 130 97) := by decide

/-- C6 (corrected).  The two-byte extended-length path itself is correct:
the encoder frames a 130-byte payload with the `[0x81, 0xfe, len16]` header,
and the decoder inverts exactly that framing when the frame is unmasked (the
server-to-client direction it is used for), returning the 130-byte payload
unchanged. -/
theorem ws_frame_two_byte_roundtrip (p mask : List Nat) (h : p.length = 130) :
    (encodeWsFrame p mask).take 4 = [129, 254, 0, 130] ∧
    decodeWsFrame (129 :: 126 :: 0 :: 130 :: p) = some p := by
  have hand1 : (130 &&& 255 : Nat) = 130 := by decide
  have hand2 : (126 &&& 127 : Nat) = 126 := by decide
  constructor
  · simp [encodeWsFrame, h, List.take_succ_cons, hand1]
  · simp only [decodeWsFrame, List.length_cons, List.getD_cons_succ, List.getD_cons_zero,
      List.drop_succ_cons, List.drop_zero, hand2]
    norm_num [h]

/-- Witness for C6 at the all-sevens 130-byte payload. -/
theorem ws_frame_two_byte_roundtrip_witness :
    (encodeWsFrame (List.replicate 130 7) [9, 9, 9, 9]).take 4 = [129, 254, 0, 130] ∧
    decodeWsFrame (129 :: 126 :: 0 :: 130 :: List.replicate 130 7) =
      some (List.replicate 130 7) :=
  ws_frame_two_byte_roundtrip (List.replicate 130 7) [9, 9, 9, 9] (by decide)

/-! ## `split('.')` and marker-strip lemmas -/

theorem splitDotAux_acc (w : List Char) : ∀ acc : List Char,
    splitDotAux w acc = (acc.reverse ++ (splitDot w).headD []) :: (splitDot w).tail := by
  induction w with
  | nil => intro acc; simp [splitDot, splitDotAux]
  | cons c w ih =>
    intro acc
    by_cases hc : c = '.'
    · subst hc
      simp only [splitDot, splitDotAux, if_pos rfl]
      simp [ih []]
    · simp only [splitDot, splitDotAux, if_neg hc]
      rw [ih (c :: acc), ih [c]]
      simp

/-- `splitDot` never returns the empty list: it is its head followed by its
tail. -/
theorem splitDot_eq_cons (w : List Char) :
    splitDot w = (splitDot w).headD [] :: (splitDot w).tail := by
  have h := splitDotAux_acc w []
  simpa [splitDot] using h

theorem splitDotAux_append_noDot (h : List Char) (hnd : ∀ c ∈ h, c ≠ '.') :
    ∀ (w acc : List Char), splitDotAux (h ++ w) acc = splitDotAux w (h.reverse ++ acc) := by
  induction h with
  | nil => intro w acc; simp
  | cons c t ih =>
    intro w acc
    have hc : c ≠ '.' := hnd c (by simp)
    simp only [List.cons_append, splitDotAux, if_neg hc, List.append_eq]
    rw [ih (fun x hx => hnd x (by simp [hx])) w (c :: acc)]
    simp

/-- Splitting `h ++ '.' ++ rest` when `h` is dot-free peels off `h`. -/
theorem splitDot_append_head (h rest : List Char) (hnd : ∀ c ∈ h, c ≠ '.') :
    splitDot (h ++ '.' :: rest) = h :: splitDot rest := by
  unfold splitDot
  rw [splitDotAux_append_noDot h hnd ('.' :: rest) []]
  simp [splitDotAux]

/-- A dot-free value splits into a single segment. -/
theorem splitDot_no_dot (w : List Char) (hw : ∀ c ∈ w, c ≠ '.') :
    splitDot w = [w] := by
  have h2 := splitDotAux_append_noDot w hw [] []
  simpa [splitDot, splitDotAux] using h2

/-- Splitting after prepending a dot-free chunk only extends the first
segment. -/
theorem splitDot_append_noDot_all (p w : List Char) (hp : ∀ c ∈ p, c ≠ '.') :
    splitDot (p ++ w) = (p ++ (splitDot w).headD []) :: (splitDot w).tail := by
  unfold splitDot
  rw [splitDotAux_append_noDot p hp w []]
  rw [splitDotAux_acc w (p.reverse ++ [])]
  simp [splitDot]

theorem stripSessionEqL_append (v : List Char) :
    stripSessionEqL (sessionEqChars ++ v) = v := by
  unfold stripSessionEqL
  rw [if_pos (List.isPrefixOf_iff_prefix.mpr (List.prefix_append _ _))]
  exact List.drop_left _ _

/-- The `__session=` marker contains no dot, so if it fronts a value of the
form `h ++ '.' ++ rest` with dot-free `h`, it sits inside `h`. -/
theorem sessionEq_len_le (h rest : List Char)
    (hp : sessionEqChars.isPrefixOf (h ++ '.' :: rest) = true) :
    sessionEqChars.length ≤ h.length := by
  by_contra hlt
  push_neg at hlt
  obtain ⟨t2, ht2⟩ := List.isPrefixOf_iff_prefix.mp hp
  have e1 : (sessionEqChars ++ t2)[h.length]? = sessionEqChars[h.length]? := by
    rw [List.getElem?_append]
    rw [if_pos hlt]
  have e2 : (h ++ '.' :: rest)[h.length]? = some '.' := by
    rw [List.getElem?_append_right (le_refl _)]
    simp
  rw [ht2, e2] at e1
  obtain ⟨hilen, hival⟩ := List.getElem?_eq_some.mp e1.symm
  have hmem : '.' ∈ sessionEqChars := by
    rw [← hival]; exact List.getElem_mem hilen
  exact absurd hmem (by decide)

/-- Stripping the marker from a constructed `h.mid....` value leaves a value
of the same shape with a dot-free first chunk. -/
theorem strip_constructed (h rest : List Char) (hh : ∀ c ∈ h, c ≠ '.') :
    ∃ h', (∀ c ∈ h', c ≠ '.') ∧
      stripSessionEqL (h ++ '.' :: rest) = h' ++ '.' :: rest := by
  unfold stripSessionEqL
  by_cases hp : sessionEqChars.isPrefixOf (h ++ '.' :: rest)
  · have hle := sessionEq_len_le h rest hp
    refine ⟨h.drop sessionEqChars.length, ?_, ?_⟩
    · intro c hc; exact hh c (List.mem_of_mem_drop hc)
    · rw [if_pos hp, List.drop_append_of_le_length hle]
  · exact ⟨h, hh, by rw [if_neg hp]⟩

/-- `extractSessionId` on a value constructed as `h.mid.t` (dot-free `h` and
`mid`) is decided entirely by the middle segment. -/
theorem extract_constructed (h mid t : List Char) (hh : ∀ c ∈ h, c ≠ '.')
    (hm : ∀ c ∈ mid, c ≠ '.') :
    extractSessionIdL (h ++ '.' :: (mid ++ '.' :: t)) = sidFromMiddle mid := by
  unfold extractSessionIdL
  obtain ⟨h', hh', heq⟩ := strip_constructed h (mid ++ '.' :: t) hh
  rw [heq]
  unfold extractCore
  rw [splitDot_append_head h' _ hh', splitDot_append_head mid t hm]
  simp

/-! ## C2: `extractSessionId` contract -/

/-- C2 counterexample.  The claim requires absence for every input lacking
three dot-delimited segments, but the source only rejects inputs with fewer
than two segments: a two-segment value whose second segment decodes to
`\x7b"sid": "sess_abc"\x7d` yields `sess_abc`, not absence. -/
theorem extractSessionId_two_segments :
    extractSessionId "h.eyJzaWQiOiJzZXNzX2FiYyJ9" = some "sess_abc" ∧
    (splitDot "h.eyJzaWQiOiJzZXNzX2FiYyJ9".toList).length = 2 := ⟨rfl, rfl⟩

/-- C2 (corrected).  `extractSessionId` is total by construction (absence is
its only failure signal), and: a correctly-shaped three-segment value whose
base64url-decoded middle segment is the JSON object with a `sess_`-form
`sid` yields exactly that id; a value with fewer than two dot-delimited
segments yields absence (the source accepts two or more segments, not
exactly three); a non-JSON middle segment yields absence; and a payload
without a usable `sid`/`session_id` claim yields absence. -/
theorem extractSessionId_contract :
    (∀ (h mid t : List Char) (s : String),
      (∀ c ∈ h, c ≠ '.') → (∀ c ∈ mid, c ≠ '.') →
      decodeMiddle mid = some (.obj [("sid", .str s)]) →
      sessChars.isPrefixOf s.toList = true →
      extractSessionIdL (h ++ '.' :: (mid ++ '.' :: t)) = some s) ∧
    (∀ v : List Char, (∀ c ∈ v, c ≠ '.') → extractSessionIdL v = none) ∧
    (∀ h mid t : List Char,
      (∀ c ∈ h, c ≠ '.') → (∀ c ∈ mid, c ≠ '.') →
      decodeMiddle mid = none →
      extractSessionIdL (h ++ '.' :: (mid ++ '.' :: t)) = none) ∧
    (∀ (h mid t : List Char) (payload : Json),
      (∀ c ∈ h, c ≠ '.') → (∀ c ∈ mid, c ≠ '.') →
      decodeMiddle mid = some payload →
      coalesce (jsGet payload "sid") (jsGet payload "session_id") = none →
      extractSessionIdL (h ++ '.' :: (mid ++ '.' :: t)) = none) := by
  refine ⟨?_, ?_, ?_, ?_⟩
  · intro h mid t s hh hm hdec hpre
    rw [extract_constructed h mid t hh hm]
    have hp2 : sessChars <+: s.data := List.isPrefixOf_iff_prefix.mp hpre
    simp [sidFromMiddle, hdec, jsGet, coalesce, hp2]
  · intro v hv
    unfold extractSessionIdL extractCore
    have hv' : ∀ c ∈ stripSessionEqL v, c ≠ '.' := by
      unfold stripSessionEqL
      by_cases hp : sessionEqChars.isPrefixOf v
      · rw [if_pos hp]; intro c hc; exact hv c (List.mem_of_mem_drop hc)
      · rw [if_neg hp]; exact hv
    rw [splitDot_no_dot _ hv']
    simp
  · intro h mid t hh hm hdec
    rw [extract_constructed h mid t hh hm]
    simp [sidFromMiddle, hdec]
  · intro h mid t payload hh hm hdec hcoal
    rw [extract_constructed h mid t hh hm]
    cases payload <;> simp [sidFromMiddle, hdec, hcoal]

/-- Witness for C2 at a concrete constructed token (round trip) and a
concrete dot-free value (absence). -/
theorem extractSessionId_contract_witness :
    extractSessionIdL ("hdr".toList ++ '.' ::
        ("eyJzaWQiOiJzZXNzX2FiYyJ9".toList ++ '.' :: "sig0".toList)) =
      some "sess_abc" ∧
    extractSessionIdL "nodotshere".toList = none := by
  constructor
  · exact extractSessionId_contract.1 "hdr".toList "eyJzaWQiOiJzZXNzX2FiYyJ9".toList
      "sig0".toList "sess_abc" (by decide) (by decide) rfl (by decide)
  · exact extractSessionId_contract.2.1 "nodotshere".toList (by decide)

/-! ## C10: `__session=` marker normalization -/

/-- Prepending the dot-free `__session=` marker to a value does not change
which segment is the middle one, so `extractCore` ignores it. -/
theorem extractCore_marker (w : List Char) :
    extractCore (sessionEqChars ++ w) = extractCore w := by
  unfold extractCore
  rw [splitDot_append_noDot_all sessionEqChars w (by decide)]
  conv_rhs => rw [splitDot_eq_cons w]
  simp [List.getD]

/-- `extractSessionId` strips at most one marker, so a value that still
carries the marker after one strip is read with the marker inside its first
segment — which the split ignores. -/
theorem extractSessionIdL_marker (v : List Char) :
    extractSessionIdL (sessionEqChars ++ v) = extractSessionIdL v := by
  unfold extractSessionIdL
  rw [stripSessionEqL_append]
  unfold stripSessionEqL
  by_cases hp : sessionEqChars.isPrefixOf v
  · rw [if_pos hp]
    obtain ⟨w, hw⟩ := List.isPrefixOf_iff_prefix.mp hp
    rw [← hw, List.drop_left, extractCore_marker]
  · rw [if_neg hp]

/-- C10 counterexample.  For a value that itself begins with `__session=`,
the token exchange builds a different Cookie header for the marker-prefixed
form than for the bare form (only one marker is stripped), so the two are
not interchangeable at every entry point. -/
theorem cookieHeader_marker_not_invariant :
    cookieHeader ("__session=" ++ "__session=x") none [] ≠
      cookieHeader "__session=x" none [] := by decide

/-- C10 (corrected).  `extractSessionId` treats a `__session=`-prefixed
cookie value exactly like the bare value for every input; the token
exchange's Cookie header is identical for the prefixed and bare forms
whenever the bare value does not itself begin with the `__session=` marker
(when it does, only one marker is stripped and the headers differ, as the
counterexample shows). -/
theorem marker_normalization (v : String) (uat : Option String)
    (extras : List (String × String)) :
    extractSessionId ("__session=" ++ v) = extractSessionId v ∧
    (sessionEqChars.isPrefixOf v.toList = false →
      cookieHeader ("__session=" ++ v) uat extras = cookieHeader v uat extras) := by
  have hdata : ("__session=" ++ v).toList = sessionEqChars ++ v.toList := by
    show ("__session=" ++ v).data = sessionEqChars ++ v.data
    rw [String.data_append]
    rfl
  constructor
  · unfold extractSessionId
    rw [hdata]
    exact extractSessionIdL_marker v.toList
  · intro hv
    unfold cookieHeader cookieParts stripSessionEq
    rw [hdata, stripSessionEqL_append]
    unfold stripSessionEqL
    have hv2 : ¬ (sessionEqChars <+: v.data) := by
      intro hpre
      have h4 : sessionEqChars.isPrefixOf v.toList = true :=
        List.isPrefixOf_iff_prefix.mpr hpre
      rw [h4] at hv
      exact Bool.noConfusion hv
    simp [hv2]

/-- Witness for C10 at a bare cookie value without the marker. -/
theorem marker_normalization_witness :
    extractSessionId ("__session=" ++ "h.eyJzaWQiOiJzZXNzX2FiYyJ9") =
      extractSessionId "h.eyJzaWQiOiJzZXNzX2FiYyJ9" ∧
    cookieHeader ("__session=" ++ "h.e") none [("cf_clearance", "v")] =
      cookieHeader "h.e" none [("cf_clearance", "v")] :=
  ⟨(marker_normalization "h.eyJzaWQiOiJzZXNzX2FiYyJ9" none []).1,
   (marker_normalization "h.e" none [("cf_clearance", "v")]).2 (by decide)⟩

/-! ## C1: rotation persistence -/

theorem find?_upsert_map {m : List (String × String)} {k n : String} {v : String}
    (hkn : k ≠ n) :
    (m.map (fun p => if p.1 = n then (n, v) else p)).find? (fun p => p.1 = k) =
      m.find? (fun p => p.1 = k) := by
  induction m with
  | nil => rfl
  | cons p m ih =>
    by_cases hpn : p.1 = n
    · simp only [List.map_cons, List.find?_cons, if_pos hpn]
      have h1 : ((n, v).1 = k) = False := by simp [Ne.symm hkn]
      have h2 : (p.1 = k) = False := by simp [hpn, Ne.symm hkn]
      simp [h1, h2, ih]
    · simp only [List.map_cons, List.find?_cons, if_neg hpn]
      by_cases hpk : p.1 = k
      · simp [hpk]
      · simp [hpk, ih]

theorem find?_append_single {m : List (String × String)} {k n : String} {v : String}
    (hkn : k ≠ n) :
    (m ++ [(n, v)]).find? (fun p => p.1 = k) = m.find? (fun p => p.1 = k) := by
  induction m with
  | nil => simp [List.find?, Ne.symm hkn]
  | cons p m ih =>
    by_cases hpk : p.1 = k
    · simp [List.find?_cons, hpk]
    · simp [List.find?_cons, hpk, ih]

theorem lookupStr_upsert_ne {m : List (String × String)} {k n v : String}
    (hkn : k ≠ n) : lookupStr k (upsert m n v) = lookupStr k m := by
  unfold upsert lookupStr
  by_cases hany : m.any (fun p => p.1 = n)
  · simp only [if_pos hany, find?_upsert_map hkn]
  · simp only [if_neg hany, find?_append_single hkn]

theorem lookupStr_applyRotationHeader (st : RotState) (hd : String) (k : String)
    (hk : rotationName hd ≠ some k) :
    lookupStr k (applyRotationHeader st hd).rotatedExtras =
      lookupStr k st.rotatedExtras := by
  unfold applyRotationHeader
  cases hpair : rotationPair hd with
  | none => rfl
  | some p =>
    obtain ⟨name, value⟩ := p
    have hne : k ≠ name := by
      intro h
      subst h
      exact hk (by simp [rotationName, hpair])
    by_cases h1 : name = "__session"
    · simp [h1]
    · by_cases h2 : name = "__client_uat"
      · simp [h1, h2]
      · by_cases h3 : isSafeCookieName name
        · simp [h1, h2, h3, lookupStr_upsert_ne hne]
        · simp [h1, h2, h3]

theorem lookupStr_rotation_fold (headers : List String) :
    ∀ (st : RotState) (k : String), (∀ hd ∈ headers, rotationName hd ≠ some k) →
      lookupStr k ((headers.foldl applyRotationHeader st).rotatedExtras) =
        lookupStr k st.rotatedExtras := by
  induction headers with
  | nil => intro st k _; rfl
  | cons hd headers ih =>
    intro st k hks
    rw [List.foldl_cons]
    rw [ih (applyRotationHeader st hd) k (fun x hx => hks x (by simp [hx]))]
    exact lookupStr_applyRotationHeader st hd k (hks hd (by simp))

/-- C1 counterexample.  A successful token exchange (HTTP 200 with a `jwt`
field) whose response carries no `Set-Cookie` header at all does not persist
anything: the store is returned untouched, without the exchanged quadruple,
contradicting the claimed unconditional persistence after every successful
exchange. -/
theorem rotation_no_setCookie_no_persist :
    (fetchToken emptyStore ⟨"ck", "sess_1", none, []⟩
        (.response 200 "\x7b\"jwt\":\"t\"\x7d" none)).1 = .ok (.str "t") ∧
    (fetchToken emptyStore ⟨"ck", "sess_1", none, []⟩
        (.response 200 "\x7b\"jwt\":\"t\"\x7d" none)).2 = emptyStore ∧
    emptyStore.sessionCookie ≠ some "ck" := by
  exact ⟨rfl, rfl, by decide⟩

/-- C1 (corrected).  Whenever the token exchange succeeds AND the response
carries a `Set-Cookie` header array, every header is processed by its first
`name=value` pair — `__session` replaces the cookie, `__client_uat` the
client-uat, and other safe names are upserted into the extras — and the
resulting quadruple is persisted through `saveSession`; any extra cookie
whose name is effectively carried by no header keeps its prior value.  With
no `Set-Cookie` header present the store is not written at all (the
counterexample), so persistence is conditional on rotation evidence, not
unconditional. -/
theorem rotation_persistence (pre : Store) (args : FetchArgs) (status : Nat)
    (body : String) (headers : List String) (data token : Json)
    (h2xx : status = 200 ∨ status = 201)
    (hparse : jsonParse? body.toList = some data)
    (hread : readTokenField data = .ok (some token))
    (htruthy : jsTruthy token = true) :
    fetchToken pre args (.response status body (some headers)) =
      (.ok token,
       saveSession pre (rotatedState args headers).sessionCookie args.sessionId
         (rotatedState args headers).rotatedUat
         (some (rotatedState args headers).rotatedExtras)) ∧
    ∀ k, (∀ hd ∈ headers, rotationName hd ≠ some k) →
      lookupStr k (rotatedState args headers).rotatedExtras =
        lookupStr k args.extraCookies := by
  constructor
  · have hp : jsonParse? body.data = some data := hparse
    rcases h2xx with rfl | rfl <;>
      simp [fetchToken, hp, hread, htruthy, persistRotatedSessionCookie, rotatedState]
  · intro k hks
    exact lookupStr_rotation_fold headers _ k hks

/-- Witness for C1: the spec's own rotation scenario.  A 200 response whose
`Set-Cookie` headers rotate `__session` and add `cf_clearance=abc` persists
the new cookie value and the new extra cookie, while the previously-stored
extra cookie `old` (absent from the response) keeps its value. -/
theorem rotation_persistence_witness :
    fetchToken emptyStore ⟨"ck", "sess_1", none, [("old", "1")]⟩
        (.response 200 "\x7b\"jwt\":\"t\"\x7d"
          (some ["__session=newval; Path=/; HttpOnly", "cf_clearance=abc"])) =
      (.ok (.str "t"),
       ⟨some "newval", some "sess_1", some "1",
        some "\x7b\"old\":\"1\",\"cf_clearance\":\"abc\"\x7d"⟩) ∧
    lookupStr "old"
        (rotatedState ⟨"ck", "sess_1", none, [("old", "1")]⟩
          ["__session=newval; Path=/; HttpOnly", "cf_clearance=abc"]).rotatedExtras =
      some "1" := by
  have h := rotation_persistence emptyStore ⟨"ck", "sess_1", none, [("old", "1")]⟩
    200 "\x7b\"jwt\":\"t\"\x7d" ["__session=newval; Path=/; HttpOnly", "cf_clearance=abc"]
    (.obj [("jwt", .str "t")]) (.str "t") (Or.inl rfl) rfl rfl rfl
  constructor
  · rw [h.1]; rfl
  · exact h.2 "old" (by decide)

/-! ## C3: the diagnostic check flow and the Secret Store -/

theorem fetchToken_store_none_sc (pre : Store) (args : FetchArgs) (status : Nat)
    (body : String) :
    (fetchToken pre args (.response status body none)).2 = pre := by
  simp only [fetchToken]
  repeat' split
  all_goals rfl

theorem fetchToken_store_not_success (pre : Store) (args : FetchArgs)
    (out : FetchOutcome) (h : fetchSucceeds out = false) :
    (fetchToken pre args out).2 = pre := by
  cases out with
  | transportError m => rfl
  | response status body sc =>
    simp only [fetchToken]
    by_cases h2 : (status = 200 || status = 201) = true
    · rw [if_pos h2]
      cases hps : jsonParse? body.toList with
      | none => simp
      | some data =>
        simp only []
        cases hrt : readTokenField data with
        | error e => simp
        | ok tokenOpt =>
          cases tokenOpt with
          | none => simp
          | some token =>
            by_cases ht : jsTruthy token = true
            · exfalso
              simp only [fetchSucceeds, h2, hps, hrt, ht, Bool.true_and] at h
              exact Bool.noConfusion h
            · simp [ht]
    · rw [if_neg h2]
      split <;> rfl

theorem fetchToken_no_write (pre : Store) (args : FetchArgs) (out : FetchOutcome)
    (h : fetchWritesStore out = false) :
    (fetchToken pre args out).2 = pre := by
  by_cases hf : fetchSucceeds out = true
  · have hsc : (setCookieOf out).isSome = false := by
      simpa [fetchWritesStore, hf] using h
    cases out with
    | transportError m => rfl
    | response status body sc =>
      cases sc with
      | none => exact fetchToken_store_none_sc pre args status body
      | some hs => simp [setCookieOf] at hsc
  · exact fetchToken_store_not_success pre args out (by simpa using hf)

/-- C3 counterexample.  A `check` run whose single validation exchange
succeeds (HTTP 200 with a token) and whose response rotates `__session` DOES
write to the Secret Store: the candidate quadruple is persisted by the
rotation-persistence step inside `fetchToken`, so the diagnostic flow is not
write-free. -/
theorem check_flow_writes_store :
    checkCdpSessionStore emptyStore
        (some [⟨some "https://huntr.co/home", some "page", some "Huntr", some "ws://x"⟩])
        (.ok (some ⟨"a.b.c", some "1", [], some "sess_1"⟩))
        (.response 200 "\x7b\"jwt\":\"x.y.z\"\x7d" (some ["__session=rot"])) ≠
      emptyStore := by decide

/-- C3 (corrected).  The check flow performs no store writes outside its
single validation exchange: whenever that exchange does not reach
`saveSession` — it fails, or its response carries no `Set-Cookie` header —
the store after `checkCdpSession` equals the store before it.  When the
validation succeeds with a `Set-Cookie` header present, the candidate
quadruple is written (see the counterexample), so the flow is only
conditionally non-destructive. -/
theorem check_flow_store_frame (pre : Store) (tabs : Option (List ChromeTab))
    (snap : Except String (Option SessionSnapshot)) (out : FetchOutcome)
    (h : fetchWritesStore out = false) :
    checkCdpSessionStore pre tabs snap out = pre := by
  unfold checkCdpSessionStore refreshFromProvidedSession
  repeat' split
  all_goals first
    | rfl
    | exact fetchToken_no_write pre _ out h

/-- Witness for C3: a check run whose validation is rejected with HTTP 401
leaves a populated store untouched. -/
theorem check_flow_store_frame_witness :
    checkCdpSessionStore ⟨some "c", some "sess_9", some "7", none⟩
        (some [⟨some "https://huntr.co/home", some "page", some "Huntr", some "ws://x"⟩])
        (.ok (some ⟨"a.b.c", some "1", [], some "sess_1"⟩))
        (.response 401 "denied" none) =
      ⟨some "c", some "sess_9", some "7", none⟩ :=
  check_flow_store_frame _ _ _ _ (by decide)

/-! ## C5: credential resolution order -/

/-- C5 (confirmed).  `getTokenProvider` consults, in order: the explicit
`--token` option, the environment token, the stored Clerk session (returned
as the dynamic provider wrapping `getFreshToken`), the config-file token,
the keychain token, and the interactive prompt, short-circuiting at the
first usable (truthy) value; with every source exhausted it throws the
`NoCredentialAvailable` message enumerating the remediation options. -/
theorem getTokenProvider_priority (env : CredEnv) (opts : TokenOptions) :
    (∀ t, opts.token = some t → t ≠ "" →
      getTokenProvider env opts = .ok (.static t)) ∧
    (optTruthy opts.token = none → ∀ t, env.envToken = some t → t ≠ "" →
      getTokenProvider env opts = .ok (.static t)) ∧
    (optTruthy opts.token = none → optTruthy env.envToken = none →
      hasSession env.clerkStore = true →
      getTokenProvider env opts = .ok .clerkDynamic) ∧
    (optTruthy opts.token = none → optTruthy env.envToken = none →
      hasSession env.clerkStore = false → ∀ t, env.configToken = some t → t ≠ "" →
      getTokenProvider env opts = .ok (.static t)) ∧
    (optTruthy opts.token = none → optTruthy env.envToken = none →
      hasSession env.clerkStore = false → optTruthy env.configToken = none →
      ∀ t, env.keychainToken = some t → t ≠ "" →
      getTokenProvider env opts = .ok (.static t)) ∧
    (optTruthy opts.token = none → optTruthy env.envToken = none →
      hasSession env.clerkStore = false → optTruthy env.configToken = none →
      optTruthy env.keychainToken = none → opts.usePrompt ≠ some false →
      env.promptedToken ≠ "" →
      getTokenProvider env opts = .ok (.static env.promptedToken)) ∧
    (optTruthy opts.token = none → optTruthy env.envToken = none →
      hasSession env.clerkStore = false → optTruthy env.configToken = none →
      optTruthy env.keychainToken = none →
      (opts.usePrompt = some false ∨ env.promptedToken = "") →
      getTokenProvider env opts = .error noCredentialMessage) := by
  refine ⟨?_, ?_, ?_, ?_, ?_, ?_, ?_⟩
  · intro t ht hne
    have h1 : optTruthy opts.token = some t := by simp [optTruthy, ht, hne]
    simp [getTokenProvider, h1]
  · intro h0 t ht hne
    have h1 : optTruthy env.envToken = some t := by simp [optTruthy, ht, hne]
    simp [getTokenProvider, h0, h1]
  · intro h0 h1 hs
    simp [getTokenProvider, h0, h1, hs]
  · intro h0 h1 hs t ht hne
    have h2 : optTruthy env.configToken = some t := by simp [optTruthy, ht, hne]
    simp [getTokenProvider, h0, h1, hs, h2]
  · intro h0 h1 hs h2 t ht hne
    have h3 : optTruthy env.keychainToken = some t := by simp [optTruthy, ht, hne]
    simp [getTokenProvider, h0, h1, hs, h2, h3]
  · intro h0 h1 hs h2 h3 hu hp
    have h4 : optTruthy (some env.promptedToken) = some env.promptedToken := by
      simp [optTruthy, hp]
    simp [getTokenProvider, h0, h1, hs, h2, h3, hu, h4]
  · intro h0 h1 hs h2 h3 hlast
    rcases hlast with hu | hp
    · simp [getTokenProvider, h0, h1, hs, h2, h3, hu]
    · by_cases hu : opts.usePrompt = some false
      · simp [getTokenProvider, h0, h1, hs, h2, h3, hu]
      · have h4 : optTruthy (some env.promptedToken) = none := by simp [optTruthy, hp]
        simp [getTokenProvider, h0, h1, hs, h2, h3, hu, h4]

/-- Witness for C5, one concrete environment per source in the chain. -/
theorem getTokenProvider_priority_witness :
    getTokenProvider ⟨some "E", emptyStore, some "C", some "K", "P"⟩
        ⟨some "T", none⟩ = .ok (.static "T") ∧
    getTokenProvider ⟨some "E", emptyStore, some "C", some "K", "P"⟩
        ⟨none, none⟩ = .ok (.static "E") ∧
    getTokenProvider ⟨none, ⟨some "c", some "i", none, none⟩, some "C", some "K", "P"⟩
        ⟨none, none⟩ = .ok .clerkDynamic ∧
    getTokenProvider ⟨none, emptyStore, some "C", some "K", "P"⟩
        ⟨none, none⟩ = .ok (.static "C") ∧
    getTokenProvider ⟨none, emptyStore, none, some "K", "P"⟩
        ⟨none, none⟩ = .ok (.static "K") ∧
    getTokenProvider ⟨none, emptyStore, none, none, "P"⟩
        ⟨none, none⟩ = .ok (.static "P") ∧
    getTokenProvider ⟨none, emptyStore, none, none, "P"⟩
        ⟨none, some false⟩ = .error noCredentialMessage := by
  refine ⟨?_, ?_, ?_, ?_, ?_, ?_, ?_⟩
  · exact (getTokenProvider_priority _ _).1 "T" (by rfl) (by decide)
  · exact (getTokenProvider_priority _ _).2.1 (by rfl) "E" (by rfl) (by decide)
  · exact (getTokenProvider_priority _ _).2.2.1 (by rfl) (by rfl) (by decide)
  · exact (getTokenProvider_priority _ _).2.2.2.1 (by rfl) (by rfl) (by decide) "C" (by rfl) (by decide)
  · exact (getTokenProvider_priority _ _).2.2.2.2.1 (by rfl) (by rfl) (by decide) (by rfl) "K" (by rfl)
      (by decide)
  · exact (getTokenProvider_priority _ _).2.2.2.2.2.1 (by rfl) (by rfl) (by decide) (by rfl) (by rfl)
      (by decide) (by decide)
  · exact (getTokenProvider_priority _ _).2.2.2.2.2.2 (by rfl) (by rfl) (by decide) (by rfl) (by rfl)
      (Or.inl rfl)

/-! ## C8: capture-loop exhaustion -/

/-- When this slot's validation exchange returns HTTP 401, processing one
tab never succeeds and never changes the store. -/
theorem processTab_always401 (env : CaptureEnv) (i j : Nat)
    (hv : ∃ b sc, env.validateOutcomeAt i j = .response 401 b sc)
    (acc : WaitState × Store) (tab : ChromeTab) :
    ∃ st', processTab env i j acc tab = .inl (st', acc.2) := by
  obtain ⟨b, sc, he⟩ := hv
  unfold processTab refreshFromProvidedSession
  rw [he]
  repeat' split
  all_goals exact ⟨_, rfl⟩

/-- The inner tab loop under all-401 validation: no success, store
untouched. -/
theorem processTabs_always401 (env : CaptureEnv) (i : Nat)
    (hv : ∀ j, ∃ b sc, env.validateOutcomeAt i j = .response 401 b sc) :
    ∀ (tabs : List ChromeTab) (j : Nat) (acc : WaitState × Store),
      ∃ st', processTabs env i j tabs acc = .inl (st', acc.2) := by
  intro tabs
  induction tabs with
  | nil => intro j acc; exact ⟨acc.1, rfl⟩
  | cons tab tabs ih =>
    intro j acc
    obtain ⟨st1, h1⟩ := processTab_always401 env i j (hv j) acc tab
    obtain ⟨st2, h2⟩ := ih (j + 1) (st1, acc.2)
    exact ⟨st2, by simp [processTabs, h1, h2]⟩

/-- The capture loop under all-401 validation times out with the store
untouched. -/
theorem waitLoop_always401 (env : CaptureEnv)
    (hv : ∀ i j, ∃ b sc, env.validateOutcomeAt i j = .response 401 b sc) :
    ∀ (fuel i : Nat) (st : WaitState) (store : Store),
      ∃ st', waitLoop env fuel i st store = (timeoutResult st', store) := by
  intro fuel
  induction fuel with
  | zero => intro i st store; exact ⟨st, rfl⟩
  | succ fuel ih =>
    intro i st store
    obtain ⟨st1, h1⟩ := processTabs_always401 env i (hv i)
      (findHuntrTabs ((env.tabsAt i).getD [])) 0 (st, store)
    obtain ⟨st2, h2⟩ := ih (i + 1) st1 store
    exact ⟨st2, by simp [waitLoop, h1, h2]⟩

/-- C8 (confirmed).  If every validation exchange the capture loop performs
is rejected with HTTP 401, the loop exhausts its deadline: the wait result
carries no session cookie, the Secret Store is exactly as before the loop,
and the post-loop code takes the capture-timeout failure branch — which
reports the last tab URL, last value description and last error — and never
the `saveSession` branch. -/
theorem capture_loop_exhaustion (env : CaptureEnv)
    (hv : ∀ i j, ∃ b sc, env.validateOutcomeAt i j = .response 401 b sc)
    (fuel i : Nat) (st : WaitState) (store : Store) :
    (waitLoop env fuel i st store).1.sessionCookie = none ∧
    (waitLoop env fuel i st store).2 = store ∧
    (∃ u d e, captureAfterWait (waitLoop env fuel i st store).1 =
      .timeoutFailure u d e) ∧
    (captureAfterWait (waitLoop env fuel i st store).1).isSave = false := by
  obtain ⟨st', hw⟩ := waitLoop_always401 env hv fuel i st store
  rw [hw]
  refine ⟨rfl, rfl, ⟨lastTabUrl st'.lastTab, st'.lastValueDescription, st'.lastError, rfl⟩, rfl⟩

/-- Witness for C8: a concrete environment with one huntr tab whose snapshot
is well-formed but whose validation always answers 401. -/
theorem capture_loop_exhaustion_witness :
    (waitLoop
        ⟨fun _ => some [⟨some "https://huntr.co/home", some "page", some "Huntr", some "ws://x"⟩],
         fun _ _ _ => .ok (some ⟨"a.b.c", some "1", [], some "sess_1"⟩),
         fun _ _ => .response 401 "denied" none⟩
        3 0 ⟨none, none, none⟩ emptyStore).1.sessionCookie = none ∧
    (waitLoop
        ⟨fun _ => some [⟨some "https://huntr.co/home", some "page", some "Huntr", some "ws://x"⟩],
         fun _ _ _ => .ok (some ⟨"a.b.c", some "1", [], some "sess_1"⟩),
         fun _ _ => .response 401 "denied" none⟩
        3 0 ⟨none, none, none⟩ emptyStore).2 = emptyStore ∧
    (captureAfterWait (waitLoop
        ⟨fun _ => some [⟨some "https://huntr.co/home", some "page", some "Huntr", some "ws://x"⟩],
         fun _ _ _ => .ok (some ⟨"a.b.c", some "1", [], some "sess_1"⟩),
         fun _ _ => .response 401 "denied" none⟩
        3 0 ⟨none, none, none⟩ emptyStore).1).isSave = false := by
  have h := capture_loop_exhaustion
    ⟨fun _ => some [⟨some "https://huntr.co/home", some "page", some "Huntr", some "ws://x"⟩],
     fun _ _ _ => .ok (some ⟨"a.b.c", some "1", [], some "sess_1"⟩),
     fun _ _ => .response 401 "denied" none⟩
    (fun _ _ => ⟨"denied", none, rfl⟩) 3 0 ⟨none, none, none⟩ emptyStore
  exact ⟨h.1, h.2.1, h.2.2.2⟩

end Huntr
